import Mathlib

/-!
Verification of core routines of a concentrated-liquidity AMM
(swap fee split, adaptive-fee oracle, tick transitions, reward growth,
sparse tick-array sequencing, position range validation).

Machine integers are modelled as `Nat` (unsigned) or `Int` (signed) with
explicit `% 2^w` where the source uses wrapping arithmetic, and with
`Option`/`Except` results where the source uses checked arithmetic.
-/

namespace Solve3

/-- 2^64, the modulus of `u64` arithmetic. -/
def U64MOD : Nat := 2 ^ 64

/-- 2^128, the modulus of `u128` arithmetic. -/
def U128MOD : Nat := 2 ^ 128

/-- Smallest `i128` value. -/
def I128MIN : Int := -(2 ^ 127)

/-- Largest `i128` value. -/
def I128MAX : Int := 2 ^ 127 - 1

/-- Modelled from the spec: `PROTOCOL_FEE_RATE_MUL_VALUE = 10000`
(the constants module is not under src/). -/
def PROTOCOL_FEE_RATE_MUL_VALUE : Nat := 10000

/-- Modelled from the spec: `Q64_RESOLUTION = 64`. -/
def Q64_RESOLUTION : Nat := 64

/-- Modelled from the spec: `NO_EXPLICIT_SQRT_PRICE_LIMIT = 0`. -/
def NO_EXPLICIT_SQRT_PRICE_LIMIT : Nat := 0

/-- Modelled from the spec: `TICK_ARRAY_SIZE = 88`. -/
def TICK_ARRAY_SIZE : Int := 88

/-- Modelled from the spec: `FULL_RANGE_ONLY_TICK_SPACING_THRESHOLD = 32768`. -/
def FULL_RANGE_ONLY_TICK_SPACING_THRESHOLD : Nat := 32768

/-- Number of rewards per pool (`NUM_REWARDS = 3`, src/state/solve.rs). -/
def NUM_REWARDS : Nat := 3

/-- Scale factor for the volatility accumulator (src/state/oracle.rs). -/
def VOLATILITY_ACCUMULATOR_SCALE_FACTOR : Nat := 10000

/-- Denominator of the reduction factor (src/state/oracle.rs). -/
def REDUCTION_FACTOR_DENOMINATOR : Nat := 10000

/-- Denominator of the adaptive fee control factor (src/state/oracle.rs). -/
def ADAPTIVE_FEE_CONTROL_FACTOR_DENOMINATOR : Nat := 100000

/-- Reference force-reset age in seconds (src/state/oracle.rs). -/
def MAX_REFERENCE_AGE : Nat := 3600

/-- The error codes reachable from the routines verified here. -/
inductive ErrorCode where
  | InvalidTimestamp
  | LiquidityOverflow
  | LiquidityUnderflow
  | LiquidityNetError
  | PartialFillError
  | SqrtPriceOutOfBounds
  | InvalidSqrtPriceLimitDirection
  | ZeroTradableAmount
  | InvalidTickIndex
  | FullRangeOnlyPool
  | InvalidTickArraySequence
  | AmountCalcOverflow
  deriving DecidableEq, Repr

/-- `u128` wrapping addition. -/
def wadd128 (a b : Nat) : Nat := (a + b) % U128MOD

/-- `u128` wrapping subtraction (for `b ≤ 2^128`, which holds for all
`u128`-valued operands in this development). -/
def wsub128 (a b : Nat) : Nat := (a + U128MOD - b) % U128MOD

/-- `u64` wrapping addition. -/
def wadd64 (a b : Nat) : Nat := (a + b) % U64MOD

/-- `i128` checked addition (`checked_add`). -/
def i128_checked_add (a b : Int) : Option Int :=
  if I128MIN ≤ a + b ∧ a + b ≤ I128MAX then some (a + b) else none

/-- `i128` checked subtraction (`checked_sub`). -/
def i128_checked_sub (a b : Int) : Option Int :=
  if I128MIN ≤ a - b ∧ a - b ≤ I128MAX then some (a - b) else none

/-! ### Fee split of a swap (src/manager/swap_manager.rs, `calculate_fees`) -/

/-- `calculate_protocol_fee` (src/manager/swap_manager.rs line 288):
`global_fee * protocol_fee_rate / PROTOCOL_FEE_RATE_MUL_VALUE` in `u128`,
converted back to `u64` (exact whenever `protocol_fee_rate ≤ 10000`). -/
def calculate_protocol_fee (global_fee : Nat) (protocol_fee_rate : Nat) : Nat :=
  global_fee * protocol_fee_rate / PROTOCOL_FEE_RATE_MUL_VALUE

/-- `calculate_fees` (src/manager/swap_manager.rs line 265). Returns
`(next_protocol_fee, next_fee_growth_global_input)`. Subtraction
`global_fee -= delta` is `Nat` truncated subtraction, which agrees with the
source whenever `delta ≤ global_fee` (always the case for
`protocol_fee_rate ≤ 10000`). -/
def calculate_fees (fee_amount protocol_fee_rate curr_liquidity curr_protocol_fee
    curr_fee_growth_global_input : Nat) : Nat × Nat :=
  let step1 : Nat × Nat :=
    if protocol_fee_rate > 0 then
      let delta := calculate_protocol_fee fee_amount protocol_fee_rate
      (fee_amount - delta, wadd64 curr_protocol_fee delta)
    else
      (fee_amount, curr_protocol_fee)
  let global_fee := step1.1
  let next_protocol_fee := step1.2
  let next_fee_growth_global_input :=
    if curr_liquidity > 0 then
      wadd128 curr_fee_growth_global_input ((global_fee <<< Q64_RESOLUTION) / curr_liquidity)
    else
      curr_fee_growth_global_input
  (next_protocol_fee, next_fee_growth_global_input)

/-- One iteration of the swap loop, restricted to the quantities the fee
split touches: the step fee produced by `compute_swap` and the liquidity
in effect during the step. -/
structure FeeStep where
  fee_amount : Nat
  liquidity : Nat
  deriving DecidableEq, Repr

/-- Fee accumulator state threaded through the swap loop
(src/manager/swap_manager.rs lines 71-78, 141-153). -/
structure FeeAcc where
  fee_sum : Nat
  protocol_fee : Nat
  fee_growth : Nat
  deriving DecidableEq, Repr

/-- One swap-loop iteration of the fee bookkeeping
(src/manager/swap_manager.rs lines 141-153): `fee_sum` advances by
`checked_add` (`AmountCalcOverflow` on `u64` overflow), then
`calculate_fees` advances the protocol fee and the input-side growth. -/
def swapFeeStep (protocol_fee_rate : Nat) (acc : FeeAcc) (s : FeeStep) :
    Except ErrorCode FeeAcc :=
  if acc.fee_sum + s.fee_amount < U64MOD then
    let r := calculate_fees s.fee_amount protocol_fee_rate s.liquidity
      acc.protocol_fee acc.fee_growth
    .ok ⟨acc.fee_sum + s.fee_amount, r.1, r.2⟩
  else
    .error .AmountCalcOverflow

/-- The fee bookkeeping of the whole swap loop, as a fold over the steps. -/
def swapFeeLoop (protocol_fee_rate : Nat) (acc : FeeAcc) :
    List FeeStep → Except ErrorCode FeeAcc
  | [] => .ok acc
  | s :: rest =>
    match swapFeeStep protocol_fee_rate acc s with
    | .ok acc2 => swapFeeLoop protocol_fee_rate acc2 rest
    | .error e => .error e

/-- Initial fee accumulator of a swap on a pool whose input-side global fee
growth is `fee_growth_global_input` (src/manager/swap_manager.rs lines 71-78). -/
def initFeeAcc (fee_growth_global_input : Nat) : FeeAcc :=
  ⟨0, 0, fee_growth_global_input⟩

/-- `lp_fee` as returned by `swap` (src/manager/swap_manager.rs line 254):
`fee_sum - curr_protocol_fee`. -/
def swap_lp_fee (acc : FeeAcc) : Nat := acc.fee_sum - acc.protocol_fee

/-! ### Adaptive-fee oracle (src/state/oracle.rs) -/

/-- 2^32, the modulus of `u32` arithmetic. -/
def U32MOD : Nat := 2 ^ 32

/-- `AdaptiveFeeConstants` (src/state/oracle.rs). -/
structure AdaptiveFeeConstants where
  filter_period : Nat
  decay_period : Nat
  reduction_factor : Nat
  adaptive_fee_control_factor : Nat
  max_volatility_accumulator : Nat
  tick_group_size : Nat
  major_swap_threshold_ticks : Nat
  deriving DecidableEq, Repr

/-- `AdaptiveFeeVariables` (src/state/oracle.rs). -/
structure AdaptiveFeeVariables where
  last_reference_update_timestamp : Nat
  last_major_swap_timestamp : Nat
  volatility_reference : Nat
  tick_group_index_reference : Int
  volatility_accumulator : Nat
  deriving DecidableEq, Repr

/-- `AdaptiveFeeConstants::validate_constants` (src/state/oracle.rs lines 59-116). -/
def validate_constants (tick_spacing filter_period decay_period reduction_factor
    adaptive_fee_control_factor max_volatility_accumulator tick_group_size
    major_swap_threshold_ticks : Nat) : Bool :=
  if filter_period = 0 then false
  else if decay_period = 0 ∨ decay_period ≤ filter_period then false
  else if adaptive_fee_control_factor ≥ ADAPTIVE_FEE_CONTROL_FACTOR_DENOMINATOR then false
  else if max_volatility_accumulator * tick_group_size > U32MOD - 1 then false
  else if reduction_factor ≥ REDUCTION_FACTOR_DENOMINATOR then false
  else if tick_group_size = 0 ∨ tick_group_size > tick_spacing
      ∨ tick_spacing % tick_group_size ≠ 0 then false
  else if major_swap_threshold_ticks = 0
      ∨ (major_swap_threshold_ticks : Int) > (tick_spacing : Int) * TICK_ARRAY_SIZE then false
  else true

/-- `AdaptiveFeeVariables::update_volatility_accumulator`
(src/state/oracle.rs lines 140-155); the `as u32` narrowing of the `min`
is written as `% U32MOD`. -/
def update_volatility_accumulator (v : AdaptiveFeeVariables) (tick_group_index : Int)
    (c : AdaptiveFeeConstants) : AdaptiveFeeVariables :=
  let index_delta := (v.tick_group_index_reference - tick_group_index).natAbs
  let volatility_accumulator :=
    v.volatility_reference + index_delta * VOLATILITY_ACCUMULATOR_SCALE_FACTOR
  { v with volatility_accumulator :=
      (min volatility_accumulator c.max_volatility_accumulator) % U32MOD }

/-- `AdaptiveFeeVariables::update_reference` (src/state/oracle.rs lines 157-199);
the `as u32` narrowing of the decayed reference is written as `% U32MOD`. -/
def update_reference (v : AdaptiveFeeVariables) (tick_group_index : Int)
    (current_timestamp : Nat) (c : AdaptiveFeeConstants) :
    Except ErrorCode AdaptiveFeeVariables :=
  let max_timestamp := max v.last_reference_update_timestamp v.last_major_swap_timestamp
  if current_timestamp < max_timestamp then
    .error .InvalidTimestamp
  else
    let reference_age := current_timestamp - v.last_reference_update_timestamp
    if reference_age > MAX_REFERENCE_AGE then
      .ok { v with tick_group_index_reference := tick_group_index,
                   volatility_reference := 0,
                   last_reference_update_timestamp := current_timestamp }
    else
      let elapsed := current_timestamp - max_timestamp
      if elapsed < c.filter_period then
        .ok v
      else if elapsed < c.decay_period then
        .ok { v with tick_group_index_reference := tick_group_index,
                     volatility_reference :=
                       (v.volatility_accumulator * c.reduction_factor
                         / REDUCTION_FACTOR_DENOMINATOR) % U32MOD,
                     last_reference_update_timestamp := current_timestamp }
      else
        .ok { v with tick_group_index_reference := tick_group_index,
                     volatility_reference := 0,
                     last_reference_update_timestamp := current_timestamp }

/-! ### Ticks and rewards (src/state/solve.rs; Tick/TickUpdate records are
referenced by src/manager/tick_manager.rs) -/

/-- `SolveRewardInfo` (src/state/solve.rs lines 297-309); the reward mint is
modelled as a `Nat` identifier with default `0`, all other fields of the
source that the verified routines read are kept. -/
structure SolveRewardInfo where
  mint : Nat
  emissions_per_second_x64 : Nat
  growth_global_x64 : Nat
  deriving DecidableEq, Repr

/-- `SolveRewardInfo::initialized` (src/state/solve.rs line 322):
the mint differs from the default. -/
def SolveRewardInfo.isInitialized (r : SolveRewardInfo) : Bool := r.mint ≠ 0

/-- `SolveRewardInfo::to_reward_growths` (src/state/solve.rs lines 327-335). -/
def to_reward_growths (reward_infos : List SolveRewardInfo) : List Nat :=
  reward_infos.map (fun r => r.growth_global_x64)

/-- `Tick`: per-tick state. Modelled from the spec (section 3.2) since the
tick record module is not under src/: `initialized`, `liquidity_gross : u128`,
`liquidity_net : i128`, wrapping fee-growth-outside accumulators for both
tokens, and one reward-growth-outside accumulator per reward. -/
structure Tick where
  initialized : Bool
  liquidity_net : Int
  liquidity_gross : Nat
  fee_growth_outside_a : Nat
  fee_growth_outside_b : Nat
  reward_growths_outside : List Nat
  deriving DecidableEq, Repr

/-- `TickUpdate`: the record written back to a tick slot; same fields as
`Tick` (modelled from the spec, section 4.3, as the record module is not
under src/). -/
structure TickUpdate where
  initialized : Bool
  liquidity_net : Int
  liquidity_gross : Nat
  fee_growth_outside_a : Nat
  fee_growth_outside_b : Nat
  reward_growths_outside : List Nat
  deriving DecidableEq, Repr

/-- `TickUpdate::from(Tick)`: field-wise copy (modelled from the spec;
the conversion is not under src/). -/
def TickUpdate.fromTick (t : Tick) : TickUpdate :=
  ⟨t.initialized, t.liquidity_net, t.liquidity_gross,
   t.fee_growth_outside_a, t.fee_growth_outside_b, t.reward_growths_outside⟩

/-- `TickUpdate::default()`: the cleared (uninitialized, all-zero) update. -/
def TickUpdate.default : TickUpdate :=
  ⟨false, 0, 0, 0, 0, List.replicate NUM_REWARDS 0⟩

/-- Writing a `TickUpdate` back into a tick slot: field-wise copy
(modelled from the spec; `update_tick` of the tick-array store is not
under src/). -/
def Tick.applyUpdate (u : TickUpdate) : Tick :=
  ⟨u.initialized, u.liquidity_net, u.liquidity_gross,
   u.fee_growth_outside_a, u.fee_growth_outside_b, u.reward_growths_outside⟩

/-- `add_liquidity_delta` (src/math/liquidity_math.rs lines 5-18). -/
def add_liquidity_delta (liquidity : Nat) (delta : Int) : Except ErrorCode Nat :=
  if delta = 0 then
    .ok liquidity
  else if delta > 0 then
    if liquidity + delta.toNat < U128MOD then .ok (liquidity + delta.toNat)
    else .error .LiquidityOverflow
  else
    if delta.natAbs ≤ liquidity then .ok (liquidity - delta.natAbs)
    else .error .LiquidityUnderflow

/-- The per-reward body of the loop in `next_tick_cross_update`
(src/manager/tick_manager.rs lines 18-26): an initialized reward's
outside accumulator flips against the global, others are untouched. -/
def crossRewards (reward_infos : List SolveRewardInfo) (outsides : List Nat) : List Nat :=
  List.zipWith
    (fun r o => if r.isInitialized then wsub128 r.growth_global_x64 o else o)
    reward_infos outsides

/-- `next_tick_cross_update` (src/manager/tick_manager.rs lines 7-28).
The source returns `Result` but has no error path, so the model is pure. -/
def next_tick_cross_update (tick : Tick) (fee_growth_global_a fee_growth_global_b : Nat)
    (reward_infos : List SolveRewardInfo) : TickUpdate :=
  { TickUpdate.fromTick tick with
      fee_growth_outside_a := wsub128 fee_growth_global_a tick.fee_growth_outside_a,
      fee_growth_outside_b := wsub128 fee_growth_global_b tick.fee_growth_outside_b,
      reward_growths_outside := crossRewards reward_infos tick.reward_growths_outside }

/-- `next_tick_modify_liquidity_update` (src/manager/tick_manager.rs lines 31-91). -/
def next_tick_modify_liquidity_update (tick : Tick) (tick_index tick_current_index : Int)
    (fee_growth_global_a fee_growth_global_b : Nat)
    (reward_infos : List SolveRewardInfo) (liquidity_delta : Int)
    (is_upper_tick : Bool) : Except ErrorCode TickUpdate :=
  if liquidity_delta = 0 then
    .ok (TickUpdate.fromTick tick)
  else
    match add_liquidity_delta tick.liquidity_gross liquidity_delta with
    | .error e => .error e
    | .ok liquidity_gross =>
      if liquidity_gross = 0 then
        .ok TickUpdate.default
      else
        let seeds : Nat × Nat × List Nat :=
          if tick.liquidity_gross = 0 then
            if tick_current_index ≥ tick_index then
              (fee_growth_global_a, fee_growth_global_b, to_reward_growths reward_infos)
            else
              (0, 0, List.replicate NUM_REWARDS 0)
          else
            (tick.fee_growth_outside_a, tick.fee_growth_outside_b,
             tick.reward_growths_outside)
        let net :=
          if is_upper_tick then i128_checked_sub tick.liquidity_net liquidity_delta
          else i128_checked_add tick.liquidity_net liquidity_delta
        match net with
        | none => .error .LiquidityNetError
        | some liquidity_net =>
          .ok ⟨true, liquidity_net, liquidity_gross, seeds.1, seeds.2.1, seeds.2.2⟩

/-! ### Pool record and reward growth (src/state/solve.rs,
src/manager/solve_manager.rs) -/

/-- The numeric fields of the `Solve` pool record (src/state/solve.rs
lines 14-54) that the verified routines read. -/
structure Solve where
  tick_spacing : Nat
  fee_rate : Nat
  protocol_fee_rate : Nat
  liquidity : Nat
  sqrt_price : Nat
  tick_current_index : Int
  fee_growth_global_a : Nat
  fee_growth_global_b : Nat
  reward_last_updated_timestamp : Nat
  reward_infos : List SolveRewardInfo
  deriving DecidableEq, Repr

/-- Modelled from the spec: `checked_mul_div n0 n1 d` (the math module
defining it is not under src/) computes `n0 * n1 / d` and reports overflow
(quotient not representable in `u128`) or a zero divisor as `none`. -/
def checked_mul_div (n0 n1 d : Nat) : Option Nat :=
  if d = 0 then none
  else if n0 * n1 / d < U128MOD then some (n0 * n1 / d) else none

/-- `next_solve_reward_infos` (src/manager/solve_manager.rs lines 7-45). -/
def next_solve_reward_infos (solve : Solve) (next_timestamp : Nat) :
    Except ErrorCode (List SolveRewardInfo) :=
  let curr_timestamp := solve.reward_last_updated_timestamp
  if next_timestamp < curr_timestamp then
    .error .InvalidTimestamp
  else if solve.liquidity = 0 ∨ next_timestamp = curr_timestamp then
    .ok solve.reward_infos
  else
    let time_delta := next_timestamp - curr_timestamp
    .ok (solve.reward_infos.map (fun r =>
      if r.isInitialized then
        let reward_growth_delta :=
          (checked_mul_div time_delta r.emissions_per_second_x64 solve.liquidity).getD 0
        { r with growth_global_x64 := wadd128 r.growth_global_x64 reward_growth_delta }
      else r))

/-! ### Sparse tick-array sequence (src/util/sparse_swap.rs) -/

/-- Modelled from the spec: `floor_division` (the math module defining it is
not under src/) is floor division, so that
`floor_division t n * n` is the start of the stride-`n` window containing `t`. -/
def floor_division (dividend divisor : Int) : Int := Int.fdiv dividend divisor

/-- `ticks_in_array` of a pool: `TICK_ARRAY_SIZE * tick_spacing`
(src/util/sparse_swap.rs line 207). -/
def ticks_in_array (solve : Solve) : Int :=
  TICK_ARRAY_SIZE * (solve.tick_spacing : Int)

/-- `start_tick_index_base` of a pool: the start index of the tick array
containing `tick_current_index` (src/util/sparse_swap.rs line 209). -/
def start_tick_index_base (solve : Solve) : Int :=
  floor_division solve.tick_current_index (ticks_in_array solve) * ticks_in_array solve

/-- `get_start_tick_indexes` (src/util/sparse_swap.rs lines 203-235).
`validStart` stands for `Tick::check_is_valid_start_tick` applied at the
pool's tick spacing; the predicate itself is not under src/, so it is a
parameter. -/
def get_start_tick_indexes (validStart : Int → Bool) (solve : Solve) (a_to_b : Bool) :
    List Int :=
  let offsets : List Int :=
    if a_to_b then
      [0, -1, -2]
    else
      let shifted :=
        solve.tick_current_index + (solve.tick_spacing : Int)
          ≥ start_tick_index_base solve + ticks_in_array solve
      if shifted then [1, 2, 3] else [0, 1, 2]
  (offsets.map (fun o => start_tick_index_base solve + o * ticks_in_array solve)).filter
    validStart

/-- The required-array selection loop of `SparseSwapTickSequenceBuilder::try_build`
(src/util/sparse_swap.rs lines 144-165): walk the expected start indexes;
an expected array is taken when a loaded array with that start index was
supplied (`true` marks it initialized), or when an account at its derived
PDA was supplied but uninitialized (`false` marks the zeroed placeholder);
stop at the first expected array matched by neither. -/
def build_required (loadedStarts : List Int) (suppliedPda : Int → Bool) :
    List Int → List (Int × Bool)
  | [] => []
  | s :: rest =>
    if s ∈ loadedStarts then (s, true) :: build_required loadedStarts suppliedPda rest
    else if suppliedPda s then (s, false) :: build_required loadedStarts suppliedPda rest
    else []

/-- `SparseSwapTickSequenceBuilder::try_build` (src/util/sparse_swap.rs
lines 129-176), over the expected start indexes produced by
`get_start_tick_indexes`: fails with `InvalidTickArraySequence` when no
required array could be selected. -/
def try_build (validStart : Int → Bool) (loadedStarts : List Int)
    (suppliedPda : Int → Bool) (solve : Solve) (a_to_b : Bool) :
    Except ErrorCode (List (Int × Bool)) :=
  let required :=
    build_required loadedStarts suppliedPda (get_start_tick_indexes validStart solve a_to_b)
  if required.isEmpty then .error .InvalidTickArraySequence else .ok required

/-! ### Swap entry checks and post-loop finalization
(src/manager/swap_manager.rs, `swap`) -/

/-- The sentinel resolution at the top of `swap`
(src/manager/swap_manager.rs lines 37-45): limit 0 resolves to the min/max
sqrt-price bound per direction. -/
def adjusted_limit (minSqrtPrice maxSqrtPrice sqrt_price_limit : Nat)
    (a_to_b : Bool) : Nat :=
  if sqrt_price_limit = NO_EXPLICIT_SQRT_PRICE_LIMIT then
    if a_to_b then minSqrtPrice else maxSqrtPrice
  else sqrt_price_limit

/-- The entry checks of `swap` (src/manager/swap_manager.rs lines 37-59);
on success the adjusted sqrt-price limit is returned. The concrete values
of `MIN_SQRT_PRICE_X64` and `MAX_SQRT_PRICE_X64` are not under src/, so the
bounds are parameters `minSqrtPrice` and `maxSqrtPrice`. -/
def swap_entry_checks (minSqrtPrice maxSqrtPrice : Nat) (sqrt_price : Nat)
    (amount : Nat) (sqrt_price_limit : Nat) (a_to_b : Bool) : Except ErrorCode Nat :=
  let adjusted_sqrt_price_limit :=
    adjusted_limit minSqrtPrice maxSqrtPrice sqrt_price_limit a_to_b
  if ¬ (minSqrtPrice ≤ adjusted_sqrt_price_limit ∧ adjusted_sqrt_price_limit ≤ maxSqrtPrice) then
    .error .SqrtPriceOutOfBounds
  else if (a_to_b ∧ adjusted_sqrt_price_limit ≥ sqrt_price)
      ∨ (¬ a_to_b ∧ adjusted_sqrt_price_limit ≤ sqrt_price) then
    .error .InvalidSqrtPriceLimitDirection
  else if amount = 0 then
    .error .ZeroTradableAmount
  else
    .ok adjusted_sqrt_price_limit

/-- The post-loop stage of `swap` (src/manager/swap_manager.rs lines 235-247):
the partial-fill rejection followed by the assembly of `(amount_a, amount_b)`. -/
def finalize_swap_amounts (amount amount_remaining amount_calculated : Nat)
    (sqrt_price_limit : Nat) (amount_specified_is_input a_to_b : Bool) :
    Except ErrorCode (Nat × Nat) :=
  if amount_remaining > 0 ∧ ¬ amount_specified_is_input
      ∧ sqrt_price_limit = NO_EXPLICIT_SQRT_PRICE_LIMIT then
    .error .PartialFillError
  else if a_to_b = amount_specified_is_input then
    .ok (amount - amount_remaining, amount_calculated)
  else
    .ok (amount_calculated, amount - amount_remaining)

/-! ### Position tick-range validation (src/state/position.rs) -/

/-- Modelled from the spec (glossary; section 3.4): a tick index is usable
when it lies within the global tick bounds and is a multiple of the tick
spacing. The bounds `minTick`/`maxTick` stand for `MIN_TICK_INDEX` and
`MAX_TICK_INDEX`, whose defining module is not under src/. -/
def check_is_usable_tick (minTick maxTick : Int) (tick_index : Int)
    (tick_spacing : Nat) : Bool :=
  minTick ≤ tick_index ∧ tick_index ≤ maxTick ∧ tick_index % (tick_spacing : Int) = 0

/-- Modelled from the spec (section 3.4): the full-range indexes of a pool
are the extreme usable ticks, obtained by truncating the global tick bounds
to the tick-spacing grid (truncated division rounds towards zero, so each
result stays inside the bounds). -/
def full_range_indexes (minTick maxTick : Int) (tick_spacing : Nat) : Int × Int :=
  (Int.tdiv minTick (tick_spacing : Int) * (tick_spacing : Int),
   Int.tdiv maxTick (tick_spacing : Int) * (tick_spacing : Int))

/-- `validate_tick_range_for_solve` (src/state/position.rs lines 123-146). -/
def validate_tick_range_for_solve (minTick maxTick : Int) (tick_spacing : Nat)
    (tick_lower_index tick_upper_index : Int) : Except ErrorCode Unit :=
  if ¬ check_is_usable_tick minTick maxTick tick_lower_index tick_spacing
      ∨ ¬ check_is_usable_tick minTick maxTick tick_upper_index tick_spacing
      ∨ tick_lower_index ≥ tick_upper_index then
    .error .InvalidTickIndex
  else if tick_spacing ≥ FULL_RANGE_ONLY_TICK_SPACING_THRESHOLD then
    let fr := full_range_indexes minTick maxTick tick_spacing
    if tick_lower_index ≠ fr.1 ∨ tick_upper_index ≠ fr.2 then
      .error .FullRangeOnlyPool
    else
      .ok ()
  else
    .ok ()

/-- `Position::open_position` (src/state/position.rs lines 58-72), restricted
to its observable effect on the tick range: validate, then store the range. -/
def open_position (minTick maxTick : Int) (tick_spacing : Nat)
    (tick_lower_index tick_upper_index : Int) : Except ErrorCode (Int × Int) :=
  match validate_tick_range_for_solve minTick maxTick tick_spacing
      tick_lower_index tick_upper_index with
  | .error e => .error e
  | .ok _ => .ok (tick_lower_index, tick_upper_index)

/-! ## Theorems -/

/-- The decayed volatility reference stays below `2^32`, so the `u32`
narrowing in the decay branch of `update_reference` is exact. -/
lemma decayed_reference_lt (acc red : Nat) (hacc : acc < U32MOD)
    (hred : red < REDUCTION_FACTOR_DENOMINATOR) :
    acc * red / REDUCTION_FACTOR_DENOMINATOR < U32MOD := by
  apply Nat.div_lt_of_lt_mul
  calc acc * red ≤ acc * REDUCTION_FACTOR_DENOMINATOR :=
        Nat.mul_le_mul_left acc (Nat.le_of_lt hred)
    _ < U32MOD * REDUCTION_FACTOR_DENOMINATOR := by
        apply Nat.mul_lt_mul_of_lt_of_le hacc (Nat.le_refl _)
        simp [REDUCTION_FACTOR_DENOMINATOR]
    _ = REDUCTION_FACTOR_DENOMINATOR * U32MOD := Nat.mul_comm _ _

/-- C3: `update_reference` fails with `InvalidTimestamp` exactly when `now`
precedes `max(last_reference_update_timestamp, last_major_swap_timestamp)`;
otherwise it force-resets when the reference is older than 3600 seconds,
and else leaves the state unchanged inside the filter window, decays the
volatility reference by `reduction_factor / 10000` inside the decay window,
and zeroes it beyond the decay window, updating the reference index and
timestamp in the latter two cases. -/
theorem spec_c3_update_reference (v : AdaptiveFeeVariables) (g : Int) (now : Nat)
    (c : AdaptiveFeeConstants) (hred : c.reduction_factor < REDUCTION_FACTOR_DENOMINATOR)
    (hfd : c.filter_period ≤ c.decay_period)
    (hacc : v.volatility_accumulator < U32MOD) :
    (now < max v.last_reference_update_timestamp v.last_major_swap_timestamp →
      update_reference v g now c = .error .InvalidTimestamp)
    ∧ (max v.last_reference_update_timestamp v.last_major_swap_timestamp ≤ now →
       now - v.last_reference_update_timestamp > MAX_REFERENCE_AGE →
      update_reference v g now c =
        .ok { v with tick_group_index_reference := g,
                     volatility_reference := 0,
                     last_reference_update_timestamp := now })
    ∧ (max v.last_reference_update_timestamp v.last_major_swap_timestamp ≤ now →
       now - v.last_reference_update_timestamp ≤ MAX_REFERENCE_AGE →
       now - max v.last_reference_update_timestamp v.last_major_swap_timestamp
         < c.filter_period →
      update_reference v g now c = .ok v)
    ∧ (max v.last_reference_update_timestamp v.last_major_swap_timestamp ≤ now →
       now - v.last_reference_update_timestamp ≤ MAX_REFERENCE_AGE →
       c.filter_period ≤
         now - max v.last_reference_update_timestamp v.last_major_swap_timestamp →
       now - max v.last_reference_update_timestamp v.last_major_swap_timestamp
         < c.decay_period →
      update_reference v g now c =
        .ok { v with tick_group_index_reference := g,
                     volatility_reference :=
                       v.volatility_accumulator * c.reduction_factor
                         / REDUCTION_FACTOR_DENOMINATOR,
                     last_reference_update_timestamp := now })
    ∧ (max v.last_reference_update_timestamp v.last_major_swap_timestamp ≤ now →
       now - v.last_reference_update_timestamp ≤ MAX_REFERENCE_AGE →
       c.decay_period ≤
         now - max v.last_reference_update_timestamp v.last_major_swap_timestamp →
      update_reference v g now c =
        .ok { v with tick_group_index_reference := g,
                     volatility_reference := 0,
                     last_reference_update_timestamp := now }) := by
  refine ⟨fun h1 => ?_, fun h1 h2 => ?_, fun h1 h2 h3 => ?_,
    fun h1 h2 h3 h4 => ?_, fun h1 h2 h3 => ?_⟩
  · simp only [update_reference]
    rw [if_pos h1]
  · simp only [update_reference]
    rw [if_neg (Nat.not_lt.mpr h1), if_pos h2]
  · simp only [update_reference]
    rw [if_neg (Nat.not_lt.mpr h1), if_neg (Nat.not_lt.mpr h2), if_pos h3]
  · simp only [update_reference]
    rw [if_neg (Nat.not_lt.mpr h1), if_neg (Nat.not_lt.mpr h2),
      if_neg (Nat.not_lt.mpr h3), if_pos h4,
      Nat.mod_eq_of_lt (decayed_reference_lt _ _ hacc hred)]
  · simp only [update_reference]
    rw [if_neg (Nat.not_lt.mpr h1), if_neg (Nat.not_lt.mpr h2),
      if_neg (Nat.not_lt.mpr (hfd.trans h3)), if_neg (Nat.not_lt.mpr h3)]

/-- Witness for `spec_c3_update_reference` at a concrete oracle state. -/
theorem spec_c3_update_reference_witness :
    update_reference ⟨100, 50, 9, 3, 77⟩ 5 120 ⟨10, 60, 5000, 1000, 350000, 64, 64⟩ =
      .ok ⟨120, 50, 38, 5, 77⟩ := by
  have h := spec_c3_update_reference ⟨100, 50, 9, 3, 77⟩ 5 120
    ⟨10, 60, 5000, 1000, 350000, 64, 64⟩ (by norm_num [REDUCTION_FACTOR_DENOMINATOR])
    (by norm_num) (by norm_num [U32MOD])
  exact h.2.2.2.1 (by norm_num) (by norm_num [MAX_REFERENCE_AGE]) (by norm_num)
    (by norm_num)

/-- C5: under constants passing `validate_constants`, the volatility
accumulator is capped by `max_volatility_accumulator` after every
`update_volatility_accumulator` (which takes the `min` with the cap), and
every successful `update_reference` leaves the accumulator untouched, so the
bound is preserved by it. -/
theorem spec_c5_volatility_bound (v : AdaptiveFeeVariables) (g : Int)
    (c : AdaptiveFeeConstants) (ts : Nat)
    (_hvalid : validate_constants ts c.filter_period c.decay_period c.reduction_factor
      c.adaptive_fee_control_factor c.max_volatility_accumulator c.tick_group_size
      c.major_swap_threshold_ticks = true) :
    (update_volatility_accumulator v g c).volatility_accumulator
      ≤ c.max_volatility_accumulator
    ∧ (∀ (now : Nat) (v2 : AdaptiveFeeVariables),
        update_reference v g now c = .ok v2 →
        v2.volatility_accumulator = v.volatility_accumulator) := by
  constructor
  · simp only [update_volatility_accumulator]
    exact (Nat.mod_le _ _).trans (Nat.min_le_right _ _)
  · intro now v2 h
    simp only [update_reference] at h
    split at h
    · exact absurd h (by simp)
    · split at h
      · simp only [Except.ok.injEq] at h
        rw [← h]
      · split at h
        · simp only [Except.ok.injEq] at h
          rw [← h]
        · split at h
          · simp only [Except.ok.injEq] at h
            rw [← h]
          · simp only [Except.ok.injEq] at h
            rw [← h]

/-- Witness for `spec_c5_volatility_bound` at a concrete oracle state. -/
theorem spec_c5_volatility_bound_witness :
    ((update_volatility_accumulator ⟨100, 50, 9, 3, 77⟩ 5
        ⟨10, 60, 5000, 1000, 350000, 64, 64⟩).volatility_accumulator ≤ 350000)
    ∧ ((⟨120, 50, 38, 5, 77⟩ : AdaptiveFeeVariables).volatility_accumulator =
        (⟨100, 50, 9, 3, 77⟩ : AdaptiveFeeVariables).volatility_accumulator) := by
  have h := spec_c5_volatility_bound ⟨100, 50, 9, 3, 77⟩ 5
    ⟨10, 60, 5000, 1000, 350000, 64, 64⟩ 64 (by decide)
  exact ⟨h.1, h.2 120 ⟨120, 50, 38, 5, 77⟩ (by rfl)⟩

/-- C6: `next_solve_reward_infos` fails (and fails with `InvalidTimestamp`)
exactly when `now` precedes `reward_last_updated_timestamp`; it returns the
reward infos unchanged when the pool has no liquidity or no time elapsed;
otherwise each initialized reward's global growth advances by the wrapping
add of `checked_mul_div (now - last) emissions liquidity` with an
overflowing delta silently substituted by 0 (leaving the growth unchanged),
and uninitialized rewards are untouched. -/
theorem spec_c6_reward_infos (s : Solve) (t : Nat) :
    (∀ e, next_solve_reward_infos s t = .error e ↔
      (e = .InvalidTimestamp ∧ t < s.reward_last_updated_timestamp))
    ∧ (s.reward_last_updated_timestamp ≤ t →
       (s.liquidity = 0 ∨ t = s.reward_last_updated_timestamp) →
      next_solve_reward_infos s t = .ok s.reward_infos)
    ∧ (s.reward_last_updated_timestamp < t → s.liquidity ≠ 0 →
      next_solve_reward_infos s t = .ok (s.reward_infos.map (fun r =>
        if r.isInitialized then
          { r with growth_global_x64 := (wadd128 r.growth_global_x64
              ((checked_mul_div (t - s.reward_last_updated_timestamp)
                r.emissions_per_second_x64 s.liquidity).getD 0)) }
        else r)))
    ∧ (∀ (td em li gr : Nat), gr < U128MOD → checked_mul_div td em li = none →
      wadd128 gr ((checked_mul_div td em li).getD 0) = gr) := by
  refine ⟨fun e => ?_, fun h1 h2 => ?_, fun h1 h2 => ?_, fun td em li gr hg ho => ?_⟩
  · simp only [next_solve_reward_infos]
    constructor
    · intro h
      split at h
      · next hlt =>
        injection h with he
        exact ⟨he.symm, hlt⟩
      · split at h <;> exact absurd h (by simp)
    · rintro ⟨rfl, hlt⟩
      rw [if_pos hlt]
  · simp only [next_solve_reward_infos]
    rw [if_neg (Nat.not_lt.mpr h1), if_pos h2]
  · simp only [next_solve_reward_infos]
    have hcond : ¬ (s.liquidity = 0 ∨ t = s.reward_last_updated_timestamp) := by
      rintro (h | h)
      · exact h2 h
      · exact absurd h (Nat.ne_of_gt h1)
    rw [if_neg (Nat.not_lt.mpr (Nat.le_of_lt h1)), if_neg hcond]
  · rw [ho]
    simp only [Option.getD_none, wadd128, Nat.add_zero]
    exact Nat.mod_eq_of_lt hg

/-- Witness for `spec_c6_reward_infos` at a concrete pool state. -/
theorem spec_c6_reward_infos_witness :
    next_solve_reward_infos
        ⟨64, 3000, 0, 10, 2 ^ 64, 0, 0, 0, 100, [⟨1, 5 * 2 ^ 64, 7⟩, ⟨0, 3, 9⟩]⟩ 102 =
      .ok [⟨1, 5 * 2 ^ 64, 7 + 2 ^ 64⟩, ⟨0, 3, 9⟩] := by
  have h := (spec_c6_reward_infos
    ⟨64, 3000, 0, 10, 2 ^ 64, 0, 0, 0, 100, [⟨1, 5 * 2 ^ 64, 7⟩, ⟨0, 3, 9⟩]⟩ 102).2.2.1
    (by norm_num) (by norm_num)
  rw [h]
  rfl

/-- C2: the post-loop stage of `swap` raises `PartialFillError` exactly when
the loop left `amount_remaining > 0` in exact-out mode with the sentinel
sqrt-price limit (so exact-in swaps and exact-out swaps with an explicit
limit never raise it), and a successful exact-out swap with the sentinel
limit has `amount_remaining = 0`, hence delivers the full requested output
amount on the output side. -/
theorem spec_c2_partial_fill (amount amount_remaining amount_calculated : Nat)
    (sqrt_price_limit : Nat) (amount_specified_is_input a_to_b : Bool) :
    (finalize_swap_amounts amount amount_remaining amount_calculated
        sqrt_price_limit amount_specified_is_input a_to_b = .error .PartialFillError ↔
      (0 < amount_remaining ∧ amount_specified_is_input = false
        ∧ sqrt_price_limit = NO_EXPLICIT_SQRT_PRICE_LIMIT))
    ∧ (∀ e, finalize_swap_amounts amount amount_remaining amount_calculated
        sqrt_price_limit amount_specified_is_input a_to_b = .error e →
        e = .PartialFillError)
    ∧ (amount_specified_is_input = false →
       sqrt_price_limit = NO_EXPLICIT_SQRT_PRICE_LIMIT →
       ∀ ab : Nat × Nat,
         finalize_swap_amounts amount amount_remaining amount_calculated
           sqrt_price_limit amount_specified_is_input a_to_b = .ok ab →
         amount_remaining = 0 ∧ (if a_to_b then ab.2 else ab.1) = amount) := by
  refine ⟨?_, fun e h => ?_, fun hin hlim ab h => ?_⟩
  · constructor
    · intro h
      simp only [finalize_swap_amounts] at h
      split at h
      · next hc => exact ⟨hc.1, by simpa using hc.2.1, hc.2.2⟩
      · split at h <;> exact absurd h (by simp)
    · rintro ⟨h1, h2, h3⟩
      simp only [finalize_swap_amounts]
      rw [if_pos ⟨h1, by simp [h2], h3⟩]
  · simp only [finalize_swap_amounts] at h
    split at h
    · injection h with he
      exact he.symm
    · split at h <;> exact absurd h (by simp)
  · simp only [finalize_swap_amounts] at h
    split at h
    · exact absurd h (by simp)
    · next hc =>
      have hrem : amount_remaining = 0 := by
        by_contra hne
        exact hc ⟨Nat.pos_of_ne_zero hne, by simp [hin], hlim⟩
      subst hrem
      refine ⟨rfl, ?_⟩
      split at h
      · next hab =>
        have : a_to_b = false := by rw [hab, hin]
        injection h with he
        rw [this, ← he]
        simp
      · next hab =>
        have : a_to_b = true := by
          cases a_to_b with
          | false => exact absurd (hin ▸ rfl) hab
          | true => rfl
        injection h with he
        rw [this, ← he]
        simp

/-- Witness for `spec_c2_partial_fill`: an underfilled exact-out swap with
the sentinel limit fails with `PartialFillError`. -/
theorem spec_c2_partial_fill_witness :
    finalize_swap_amounts 10000 9000 42 0 false true = .error .PartialFillError := by
  exact (spec_c2_partial_fill 10000 9000 42 0 false true).1.mpr
    ⟨by norm_num, rfl, rfl⟩

/-- C8 counterexample: the entry checks of `swap` run in the order bounds,
direction, amount, so with `amount = 0`, the sentinel limit, `a_to_b` and a
pool sitting at the minimum sqrt price (bounds instantiated at representative
values; the refuting configuration exists for every choice of bounds), the
swap fails with `InvalidSqrtPriceLimitDirection`, not with
`ZeroTradableAmount` as the claim states. -/
theorem spec_c8_counterexample :
    swap_entry_checks 4295048016 79226673515401279992447579055 4295048016 0 0 true =
      .error .InvalidSqrtPriceLimitDirection
    ∧ ErrorCode.InvalidSqrtPriceLimitDirection ≠ ErrorCode.ZeroTradableAmount := by
  exact ⟨rfl, by simp⟩

/-- C8 (amended): the entry checks of `swap` resolve the sentinel limit to
the min/max bound per direction and then check in this order: the adjusted
limit out of `[MIN_SQRT_PRICE, MAX_SQRT_PRICE]` fails with
`SqrtPriceOutOfBounds`; otherwise a direction-inconsistent limit
(`a_to_b` with limit ≥ current price, or `!a_to_b` with limit ≤ current
price) fails with `InvalidSqrtPriceLimitDirection`; otherwise `amount = 0`
fails with `ZeroTradableAmount`; otherwise the checks pass. -/
theorem spec_c8_entry_checks (minS maxS sqrt_price amount sqrt_price_limit : Nat)
    (a_to_b : Bool) :
    ((¬ (minS ≤ adjusted_limit minS maxS sqrt_price_limit a_to_b
          ∧ adjusted_limit minS maxS sqrt_price_limit a_to_b ≤ maxS)) →
      swap_entry_checks minS maxS sqrt_price amount sqrt_price_limit a_to_b =
        .error .SqrtPriceOutOfBounds)
    ∧ ((minS ≤ adjusted_limit minS maxS sqrt_price_limit a_to_b
          ∧ adjusted_limit minS maxS sqrt_price_limit a_to_b ≤ maxS) →
       ((a_to_b ∧ sqrt_price ≤ adjusted_limit minS maxS sqrt_price_limit a_to_b)
         ∨ (¬ a_to_b ∧ adjusted_limit minS maxS sqrt_price_limit a_to_b ≤ sqrt_price)) →
      swap_entry_checks minS maxS sqrt_price amount sqrt_price_limit a_to_b =
        .error .InvalidSqrtPriceLimitDirection)
    ∧ ((minS ≤ adjusted_limit minS maxS sqrt_price_limit a_to_b
          ∧ adjusted_limit minS maxS sqrt_price_limit a_to_b ≤ maxS) →
       (¬ ((a_to_b ∧ sqrt_price ≤ adjusted_limit minS maxS sqrt_price_limit a_to_b)
         ∨ (¬ a_to_b ∧ adjusted_limit minS maxS sqrt_price_limit a_to_b ≤ sqrt_price))) →
       amount = 0 →
      swap_entry_checks minS maxS sqrt_price amount sqrt_price_limit a_to_b =
        .error .ZeroTradableAmount)
    ∧ ((minS ≤ adjusted_limit minS maxS sqrt_price_limit a_to_b
          ∧ adjusted_limit minS maxS sqrt_price_limit a_to_b ≤ maxS) →
       (¬ ((a_to_b ∧ sqrt_price ≤ adjusted_limit minS maxS sqrt_price_limit a_to_b)
         ∨ (¬ a_to_b ∧ adjusted_limit minS maxS sqrt_price_limit a_to_b ≤ sqrt_price))) →
       amount ≠ 0 →
      swap_entry_checks minS maxS sqrt_price amount sqrt_price_limit a_to_b =
        .ok (adjusted_limit minS maxS sqrt_price_limit a_to_b)) := by
  refine ⟨fun h1 => ?_, fun h1 h2 => ?_, fun h1 h2 h3 => ?_, fun h1 h2 h3 => ?_⟩
  · simp only [swap_entry_checks, adjusted_limit] at h1 ⊢
    rw [if_pos h1]
  · simp only [swap_entry_checks, adjusted_limit] at h1 h2 ⊢
    rw [if_neg (by exact fun hc => hc h1), if_pos (by
      rcases h2 with ⟨ha, hb⟩ | ⟨ha, hb⟩
      · exact Or.inl ⟨ha, hb⟩
      · exact Or.inr ⟨ha, hb⟩)]
  · simp only [swap_entry_checks, adjusted_limit] at h1 h2 ⊢
    rw [if_neg (fun hc => hc h1), if_neg h2, if_pos h3]
  · simp only [swap_entry_checks, adjusted_limit] at h1 h2 ⊢
    rw [if_neg (fun hc => hc h1), if_neg h2, if_neg h3]

/-- Witness for `spec_c8_entry_checks`: valid entry at a concrete input. -/
theorem spec_c8_entry_checks_witness :
    swap_entry_checks 4295048016 79226673515401279992447579055
        (2 ^ 64) 1000 0 true = .ok 4295048016 := by
  exact (spec_c8_entry_checks 4295048016 79226673515401279992447579055
    (2 ^ 64) 1000 0 true).2.2.2 (by decide) (by decide) (by norm_num)

/-- C9 counterexample: at `tick_spacing = 32768` the range `[-1024, 1024]`
is not on the tick-spacing grid, so `validate_tick_range_for_solve` (and
hence `open_position`) rejects it with `InvalidTickIndex`, not with
`FullRangeOnlyPool` as the claim's example states (tick bounds instantiated
at representative values; `±1024` is off-grid for every choice of bounds). -/
theorem spec_c9_counterexample :
    open_position (-443636) 443636 32768 (-1024) 1024 = .error .InvalidTickIndex
    ∧ ErrorCode.InvalidTickIndex ≠ ErrorCode.FullRangeOnlyPool := by
  exact ⟨rfl, by simp⟩

/-- C9 (amended): a non-usable or non-ordered range fails with
`InvalidTickIndex` for any tick spacing; for `tick_spacing` at or above the
full-range-only threshold, an ordered usable range that is not exactly the
full-range index pair fails with `FullRangeOnlyPool`, while the full-range
pair succeeds; below the threshold every ordered usable range succeeds. -/
theorem spec_c9_full_range_only (minT maxT : Int) (ts : Nat) (lo hi : Int) :
    ((¬ check_is_usable_tick minT maxT lo ts = true
        ∨ ¬ check_is_usable_tick minT maxT hi ts = true ∨ lo ≥ hi) →
      open_position minT maxT ts lo hi = .error .InvalidTickIndex)
    ∧ (check_is_usable_tick minT maxT lo ts = true →
       check_is_usable_tick minT maxT hi ts = true → lo < hi →
       FULL_RANGE_ONLY_TICK_SPACING_THRESHOLD ≤ ts →
       (lo ≠ (full_range_indexes minT maxT ts).1
         ∨ hi ≠ (full_range_indexes minT maxT ts).2) →
      open_position minT maxT ts lo hi = .error .FullRangeOnlyPool)
    ∧ (check_is_usable_tick minT maxT lo ts = true →
       check_is_usable_tick minT maxT hi ts = true → lo < hi →
       FULL_RANGE_ONLY_TICK_SPACING_THRESHOLD ≤ ts →
       lo = (full_range_indexes minT maxT ts).1 →
       hi = (full_range_indexes minT maxT ts).2 →
      open_position minT maxT ts lo hi = .ok (lo, hi))
    ∧ (check_is_usable_tick minT maxT lo ts = true →
       check_is_usable_tick minT maxT hi ts = true → lo < hi →
       ts < FULL_RANGE_ONLY_TICK_SPACING_THRESHOLD →
      open_position minT maxT ts lo hi = .ok (lo, hi)) := by
  refine ⟨fun h => ?_, fun h1 h2 h3 h4 h5 => ?_, fun h1 h2 h3 h4 h5 h6 => ?_,
    fun h1 h2 h3 h4 => ?_⟩
  · have hv : validate_tick_range_for_solve minT maxT ts lo hi =
        .error .InvalidTickIndex := by
      simp only [validate_tick_range_for_solve]
      rw [if_pos h]
    simp [open_position, hv]
  · have hv : validate_tick_range_for_solve minT maxT ts lo hi =
        .error .FullRangeOnlyPool := by
      simp only [validate_tick_range_for_solve]
      rw [if_neg (by
          rintro (hc | hc | hc)
          · exact hc h1
          · exact hc h2
          · exact absurd h3 (not_lt.mpr hc)),
        if_pos h4, if_pos h5]
    simp [open_position, hv]
  · have hv : validate_tick_range_for_solve minT maxT ts lo hi = .ok () := by
      simp only [validate_tick_range_for_solve]
      rw [if_neg (by
          rintro (hc | hc | hc)
          · exact hc h1
          · exact hc h2
          · exact absurd h3 (not_lt.mpr hc)),
        if_pos h4, if_neg (by
          rintro (hc | hc)
          · exact hc h5
          · exact hc h6)]
    simp [open_position, hv]
  · have hv : validate_tick_range_for_solve minT maxT ts lo hi = .ok () := by
      simp only [validate_tick_range_for_solve]
      rw [if_neg (by
          rintro (hc | hc | hc)
          · exact hc h1
          · exact hc h2
          · exact absurd h3 (not_lt.mpr hc)),
        if_neg (not_le.mpr h4)]
    simp [open_position, hv]

/-- Witness for `spec_c9_full_range_only`: at `tick_spacing = 32768` the
full-range pair is accepted. -/
theorem spec_c9_full_range_only_witness :
    open_position (-443636) 443636 32768 (-425984) 425984 = .ok (-425984, 425984) := by
  exact (spec_c9_full_range_only (-443636) 443636 32768 (-425984) 425984).2.2.1
    (by decide) (by decide) (by decide) (by norm_num [FULL_RANGE_ONLY_TICK_SPACING_THRESHOLD])
    (by decide) (by decide)

/-- `build_required` selects nothing when no expected start index is matched
by a loaded array or a supplied PDA account. -/
lemma build_required_eq_nil (loaded : List Int) (pda : Int → Bool)
    (starts : List Int)
    (h : ∀ x ∈ starts, x ∉ loaded ∧ pda x = false) :
    build_required loaded pda starts = [] := by
  cases starts with
  | nil => rfl
  | cons s rest =>
    have hs := h s (List.mem_cons_self s rest)
    simp only [build_required]
    rw [if_neg hs.1, if_neg (by simp [hs.2])]

/-- C7: the expected tick-array start indexes of a swap are, with `base` the
start of the array containing `tick_current_index` and
`tia = 88 * tick_spacing`: `base, base - tia, base - 2*tia` for `a_to_b`;
for `!a_to_b` they are shifted one stride up (`base + tia, base + 2*tia,
base + 3*tia`) exactly when `tick_current_index + tick_spacing` reaches the
next array, and `base, base + tia, base + 2*tia` otherwise — each list
filtered to valid start ticks; and when no expected array is matched by the
supplied accounts (loaded, or supplied-but-uninitialized at the derived
PDA), `try_build` fails with `InvalidTickArraySequence`. -/
theorem spec_c7_sparse_sequence (vs : Int → Bool) (loaded : List Int)
    (pda : Int → Bool) (s : Solve) (a_to_b : Bool) :
    (get_start_tick_indexes vs s true =
      List.filter vs [start_tick_index_base s,
        start_tick_index_base s - ticks_in_array s,
        start_tick_index_base s - 2 * ticks_in_array s])
    ∧ (s.tick_current_index + (s.tick_spacing : Int)
          ≥ start_tick_index_base s + ticks_in_array s →
      get_start_tick_indexes vs s false =
        List.filter vs [start_tick_index_base s + ticks_in_array s,
          start_tick_index_base s + 2 * ticks_in_array s,
          start_tick_index_base s + 3 * ticks_in_array s])
    ∧ (s.tick_current_index + (s.tick_spacing : Int)
          < start_tick_index_base s + ticks_in_array s →
      get_start_tick_indexes vs s false =
        List.filter vs [start_tick_index_base s,
          start_tick_index_base s + ticks_in_array s,
          start_tick_index_base s + 2 * ticks_in_array s])
    ∧ (0 < s.tick_spacing →
      start_tick_index_base s ≤ s.tick_current_index
        ∧ s.tick_current_index < start_tick_index_base s + ticks_in_array s)
    ∧ ((∀ x ∈ get_start_tick_indexes vs s a_to_b, x ∉ loaded ∧ pda x = false) →
      try_build vs loaded pda s a_to_b = .error .InvalidTickArraySequence) := by
  refine ⟨?_, fun hsh => ?_, fun hsh => ?_, fun hts => ?_, fun hnone => ?_⟩
  · simp only [get_start_tick_indexes, if_pos rfl, List.map]
    have he : [start_tick_index_base s + 0 * ticks_in_array s,
        start_tick_index_base s + -1 * ticks_in_array s,
        start_tick_index_base s + -2 * ticks_in_array s] =
        [start_tick_index_base s, start_tick_index_base s - ticks_in_array s,
          start_tick_index_base s - 2 * ticks_in_array s] := by
      simp only [List.cons.injEq, and_true]
      omega
    rw [he]
  · simp only [get_start_tick_indexes, Bool.false_eq_true, if_false, List.map]
    rw [if_pos hsh]
    have he : [start_tick_index_base s + 1 * ticks_in_array s,
        start_tick_index_base s + 2 * ticks_in_array s,
        start_tick_index_base s + 3 * ticks_in_array s] =
        [start_tick_index_base s + ticks_in_array s,
          start_tick_index_base s + 2 * ticks_in_array s,
          start_tick_index_base s + 3 * ticks_in_array s] := by
      simp only [List.cons.injEq, and_true]
      omega
    simp only [List.map]
    rw [he]
  · simp only [get_start_tick_indexes, Bool.false_eq_true, if_false, List.map]
    rw [if_neg (not_le.mpr hsh)]
    have he : [start_tick_index_base s + 0 * ticks_in_array s,
        start_tick_index_base s + 1 * ticks_in_array s,
        start_tick_index_base s + 2 * ticks_in_array s] =
        [start_tick_index_base s, start_tick_index_base s + ticks_in_array s,
          start_tick_index_base s + 2 * ticks_in_array s] := by
      simp only [List.cons.injEq, and_true]
      omega
    simp only [List.map]
    rw [he]
  · have htia : (0 : Int) < ticks_in_array s := by
      simp only [ticks_in_array, TICK_ARRAY_SIZE]
      positivity
    simp only [start_tick_index_base, floor_division]
    rw [Int.fdiv_eq_ediv _ (le_of_lt htia)]
    have h1 := Int.ediv_add_emod s.tick_current_index (ticks_in_array s)
    have h2 := Int.emod_nonneg s.tick_current_index (ne_of_gt htia)
    have h3 := Int.emod_lt_of_pos s.tick_current_index htia
    have hc : ticks_in_array s * (s.tick_current_index / ticks_in_array s) =
        s.tick_current_index / ticks_in_array s * ticks_in_array s := Int.mul_comm _ _
    omega
  · simp only [try_build]
    rw [build_required_eq_nil loaded pda _ hnone]
    rfl

/-- Witness for `spec_c7_sparse_sequence`: a pool on an array boundary
(`tick_current_index = 5568`, `tick_spacing = 64`, so `5568 + 64` reaches
the next array) with no matching account supplied. -/
theorem spec_c7_sparse_sequence_witness :
    get_start_tick_indexes (fun _ => true)
        ⟨64, 3000, 0, 0, 2 ^ 64, 5568, 0, 0, 0, []⟩ false = [5632, 11264, 16896]
    ∧ try_build (fun _ => true) [] (fun _ => false)
        ⟨64, 3000, 0, 0, 2 ^ 64, 5568, 0, 0, 0, []⟩ false =
      .error .InvalidTickArraySequence := by
  have h := spec_c7_sparse_sequence (fun _ => true) [] (fun _ => false)
    ⟨64, 3000, 0, 0, 2 ^ 64, 5568, 0, 0, 0, []⟩ false
  refine ⟨?_, ?_⟩
  · rw [h.2.1 (by decide)]
    rfl
  · exact h.2.2.2.2 (by intro x hx; exact ⟨by simp, rfl⟩)

/-- Wrapping subtraction from a fixed global twice is the identity on
values below the modulus. -/
lemma wsub128_wsub128 (g x : Nat) (hg : g < U128MOD) (hx : x < U128MOD) :
    wsub128 g (wsub128 g x) = x := by
  simp only [wsub128]
  rcases Nat.lt_or_ge g x with h | h
  · have h1 : (g + U128MOD - x) % U128MOD = g + U128MOD - x :=
      Nat.mod_eq_of_lt (by omega)
    rw [h1]
    have h2 : g + U128MOD - (g + U128MOD - x) = x := by omega
    rw [h2]
    exact Nat.mod_eq_of_lt hx
  · have hpos : 0 < U128MOD := by norm_num [U128MOD]
    have h1 : (g + U128MOD - x) % U128MOD = g - x := by
      have he : g + U128MOD - x = (g - x) + U128MOD := by omega
      rw [he, Nat.add_mod_right]
      exact Nat.mod_eq_of_lt (by omega)
    rw [h1]
    have h2 : g + U128MOD - (g - x) = x + U128MOD := by omega
    rw [h2, Nat.add_mod_right]
    exact Nat.mod_eq_of_lt hx

/-- Flipping the per-reward outside accumulators twice against the same
reward infos is the identity. -/
lemma crossRewards_involution (ri : List SolveRewardInfo) (outs : List Nat)
    (hlen : ri.length = outs.length)
    (hri : ∀ r ∈ ri, r.growth_global_x64 < U128MOD)
    (houts : ∀ x ∈ outs, x < U128MOD) :
    crossRewards ri (crossRewards ri outs) = outs := by
  induction ri generalizing outs with
  | nil =>
    cases outs with
    | nil => rfl
    | cons o orest => exact absurd hlen (by simp)
  | cons r rest ih =>
    cases outs with
    | nil => exact absurd hlen (by simp)
    | cons o orest =>
      simp only [crossRewards, List.zipWith]
      have hr := hri r (List.mem_cons_self r rest)
      have ho := houts o (List.mem_cons_self o orest)
      have htail : List.zipWith
          (fun r o => if r.isInitialized then wsub128 r.growth_global_x64 o else o) rest
          (List.zipWith
            (fun r o => if r.isInitialized then wsub128 r.growth_global_x64 o else o) rest
            orest) = orest := by
        have := ih orest (by simpa using hlen)
          (fun x hx => hri x (List.mem_cons_of_mem r hx))
          (fun x hx => houts x (List.mem_cons_of_mem o hx))
        simpa [crossRewards] using this
      by_cases hinit : r.isInitialized
      · simp only [hinit, if_true, List.cons.injEq]
        exact ⟨wsub128_wsub128 _ _ hr ho, htail⟩
      · simp only [hinit, if_false, List.cons.injEq]
        exact ⟨rfl, htail⟩

/-- C10: crossing a tick twice against the same global fee-growth and reward
state restores the original outside accumulators (wrapping-subtracting from
a fixed global twice is the identity), and a single cross never changes
`liquidity_net`, `liquidity_gross`, or the `initialized` flag. -/
theorem spec_c10_cross_involution (tick : Tick) (ga gb : Nat)
    (ri : List SolveRewardInfo)
    (hga : ga < U128MOD) (hgb : gb < U128MOD)
    (ha : tick.fee_growth_outside_a < U128MOD)
    (hb : tick.fee_growth_outside_b < U128MOD)
    (hlen : ri.length = tick.reward_growths_outside.length)
    (houts : ∀ x ∈ tick.reward_growths_outside, x < U128MOD)
    (hri : ∀ r ∈ ri, r.growth_global_x64 < U128MOD) :
    ((next_tick_cross_update
        (Tick.applyUpdate (next_tick_cross_update tick ga gb ri)) ga gb
        ri).fee_growth_outside_a = tick.fee_growth_outside_a)
    ∧ ((next_tick_cross_update
        (Tick.applyUpdate (next_tick_cross_update tick ga gb ri)) ga gb
        ri).fee_growth_outside_b = tick.fee_growth_outside_b)
    ∧ ((next_tick_cross_update
        (Tick.applyUpdate (next_tick_cross_update tick ga gb ri)) ga gb
        ri).reward_growths_outside = tick.reward_growths_outside)
    ∧ ((next_tick_cross_update tick ga gb ri).liquidity_net = tick.liquidity_net)
    ∧ ((next_tick_cross_update tick ga gb ri).liquidity_gross = tick.liquidity_gross)
    ∧ ((next_tick_cross_update tick ga gb ri).initialized = tick.initialized) := by
  refine ⟨?_, ?_, ?_, rfl, rfl, rfl⟩
  · simp only [next_tick_cross_update, Tick.applyUpdate, TickUpdate.fromTick]
    exact wsub128_wsub128 _ _ hga ha
  · simp only [next_tick_cross_update, Tick.applyUpdate, TickUpdate.fromTick]
    exact wsub128_wsub128 _ _ hgb hb
  · simp only [next_tick_cross_update, Tick.applyUpdate, TickUpdate.fromTick]
    exact crossRewards_involution ri tick.reward_growths_outside hlen hri houts

/-- Witness for `spec_c10_cross_involution` at a concrete tick. -/
theorem spec_c10_cross_involution_witness :
    (next_tick_cross_update
        (Tick.applyUpdate (next_tick_cross_update
          ⟨true, 5, 9, 11, 22, [33, 44, 55]⟩ 100 200 [⟨1, 0, 300⟩, ⟨0, 0, 400⟩, ⟨1, 0, 500⟩]))
        100 200 [⟨1, 0, 300⟩, ⟨0, 0, 400⟩, ⟨1, 0, 500⟩]).reward_growths_outside =
      [33, 44, 55] := by
  exact (spec_c10_cross_involution ⟨true, 5, 9, 11, 22, [33, 44, 55]⟩ 100 200
    [⟨1, 0, 300⟩, ⟨0, 0, 400⟩, ⟨1, 0, 500⟩] (by norm_num [U128MOD]) (by norm_num [U128MOD])
    (by norm_num [U128MOD]) (by norm_num [U128MOD]) (by rfl)
    (by intro x hx; fin_cases hx <;> norm_num [U128MOD])
    (by intro r hr; fin_cases hr <;> norm_num [U128MOD])).2.2.1

/-- C4: `next_tick_modify_liquidity_update` is the identity update for
`liquidity_delta = 0`; clears the tick when the updated `liquidity_gross`
is 0; on first initialization (prior gross 0) seeds the outside fee and
reward accumulators to the current globals when
`tick_current_index ≥ tick_index` and to 0 otherwise, keeping the stored
values in every other case; and sets `liquidity_net` to `net - delta` at an
upper boundary and `net + delta` at a lower boundary, failing with
`LiquidityNetError` on signed `i128` overflow. -/
theorem spec_c4_modify_liquidity (tick : Tick) (ti ci : Int) (ga gb : Nat)
    (ri : List SolveRewardInfo) (up : Bool) :
    (next_tick_modify_liquidity_update tick ti ci ga gb ri 0 up =
      .ok (TickUpdate.fromTick tick))
    ∧ (∀ d : Int, d ≠ 0 → add_liquidity_delta tick.liquidity_gross d = .ok 0 →
      next_tick_modify_liquidity_update tick ti ci ga gb ri d up =
        .ok TickUpdate.default)
    ∧ (∀ (d : Int) (g : Nat) (n : Int), d ≠ 0 →
       add_liquidity_delta tick.liquidity_gross d = .ok g → g ≠ 0 →
       tick.liquidity_gross = 0 → ci ≥ ti →
       (if up = true then i128_checked_sub tick.liquidity_net d
        else i128_checked_add tick.liquidity_net d) = some n →
      next_tick_modify_liquidity_update tick ti ci ga gb ri d up =
        .ok ⟨true, n, g, ga, gb, to_reward_growths ri⟩)
    ∧ (∀ (d : Int) (g : Nat) (n : Int), d ≠ 0 →
       add_liquidity_delta tick.liquidity_gross d = .ok g → g ≠ 0 →
       tick.liquidity_gross = 0 → ci < ti →
       (if up = true then i128_checked_sub tick.liquidity_net d
        else i128_checked_add tick.liquidity_net d) = some n →
      next_tick_modify_liquidity_update tick ti ci ga gb ri d up =
        .ok ⟨true, n, g, 0, 0, List.replicate NUM_REWARDS 0⟩)
    ∧ (∀ (d : Int) (g : Nat) (n : Int), d ≠ 0 →
       add_liquidity_delta tick.liquidity_gross d = .ok g → g ≠ 0 →
       tick.liquidity_gross ≠ 0 →
       (if up = true then i128_checked_sub tick.liquidity_net d
        else i128_checked_add tick.liquidity_net d) = some n →
      next_tick_modify_liquidity_update tick ti ci ga gb ri d up =
        .ok ⟨true, n, g, tick.fee_growth_outside_a, tick.fee_growth_outside_b,
          tick.reward_growths_outside⟩)
    ∧ (∀ (d : Int) (g : Nat), d ≠ 0 →
       add_liquidity_delta tick.liquidity_gross d = .ok g → g ≠ 0 →
       (if up = true then i128_checked_sub tick.liquidity_net d
        else i128_checked_add tick.liquidity_net d) = none →
      next_tick_modify_liquidity_update tick ti ci ga gb ri d up =
        .error .LiquidityNetError) := by
  refine ⟨?_, fun d hd hadd => ?_, fun d g n hd hadd hg h0 hci hn => ?_,
    fun d g n hd hadd hg h0 hci hn => ?_, fun d g n hd hadd hg h0 hn => ?_,
    fun d g hd hadd hg hn => ?_⟩
  · simp only [next_tick_modify_liquidity_update]
    simp
  · simp only [next_tick_modify_liquidity_update]
    rw [if_neg hd, hadd]
    rfl
  · simp only [next_tick_modify_liquidity_update]
    rw [if_neg hd, hadd]
    simp only [if_neg hg, h0, if_pos rfl, if_pos hci, hn]
    simp
  · simp only [next_tick_modify_liquidity_update]
    rw [if_neg hd, hadd]
    simp only [if_neg hg, h0, if_pos rfl, if_neg (not_le.mpr hci), hn]
    simp
  · simp only [next_tick_modify_liquidity_update]
    rw [if_neg hd, hadd]
    simp only [if_neg hg, if_neg h0, hn]
  · simp only [next_tick_modify_liquidity_update]
    rw [if_neg hd, hadd]
    simp only [if_neg hg, hn]

set_option maxRecDepth 4000 in
/-- Witness for `spec_c4_modify_liquidity`: first initialization of a lower
boundary tick with the current tick above it. -/
theorem spec_c4_modify_liquidity_witness :
    next_tick_modify_liquidity_update ⟨false, 0, 0, 0, 0, [0, 0, 0]⟩ 64 100 11 22
        [⟨1, 0, 33⟩, ⟨0, 0, 44⟩, ⟨0, 0, 0⟩] 5 false =
      .ok ⟨true, 5, 5, 11, 22, [33, 44, 0]⟩ := by
  exact (spec_c4_modify_liquidity ⟨false, 0, 0, 0, 0, [0, 0, 0]⟩ 64 100 11 22
    [⟨1, 0, 33⟩, ⟨0, 0, 44⟩, ⟨0, 0, 0⟩] false).2.2.1 5 5 5 (by norm_num) (by rfl)
    (by norm_num) rfl (by norm_num) (by rfl)

/-- The protocol-fee delta of a step never exceeds the step fee when the
protocol fee rate is at most the rate denominator. -/
lemma protocol_fee_le (f rate : Nat) (h : rate ≤ PROTOCOL_FEE_RATE_MUL_VALUE) :
    calculate_protocol_fee f rate ≤ f := by
  simp only [calculate_protocol_fee]
  calc f * rate / PROTOCOL_FEE_RATE_MUL_VALUE
      ≤ f * PROTOCOL_FEE_RATE_MUL_VALUE / PROTOCOL_FEE_RATE_MUL_VALUE :=
        Nat.div_le_div_right (Nat.mul_le_mul_left f h)
    _ = f := Nat.mul_div_cancel f (by norm_num [PROTOCOL_FEE_RATE_MUL_VALUE])

/-- The updated protocol fee of a step is at most the prior protocol fee
plus the step fee. -/
lemma calculate_fees_fst_le (f rate L pf g : Nat)
    (hrate : rate ≤ PROTOCOL_FEE_RATE_MUL_VALUE) :
    (calculate_fees f rate L pf g).1 ≤ pf + f := by
  by_cases hr : rate > 0
  · simp only [calculate_fees, if_pos hr, wadd64]
    exact (Nat.mod_le _ _).trans (Nat.add_le_add_left (protocol_fee_le f rate hrate) pf)
  · simp only [calculate_fees, if_neg hr]
    exact Nat.le_add_right pf f

/-- One fee-bookkeeping step preserves `protocol_fee ≤ fee_sum < 2^64`. -/
lemma swapFeeStep_inv (rate : Nat) (acc acc2 : FeeAcc) (s : FeeStep)
    (hrate : rate ≤ PROTOCOL_FEE_RATE_MUL_VALUE)
    (hinv : acc.protocol_fee ≤ acc.fee_sum) (_hfs : acc.fee_sum < U64MOD)
    (h : swapFeeStep rate acc s = .ok acc2) :
    acc2.protocol_fee ≤ acc2.fee_sum ∧ acc2.fee_sum < U64MOD := by
  simp only [swapFeeStep] at h
  split at h
  · next hc =>
    injection h with h4
    subst h4
    refine ⟨?_, hc⟩
    exact (calculate_fees_fst_le s.fee_amount rate s.liquidity acc.protocol_fee
      acc.fee_growth hrate).trans (Nat.add_le_add_right hinv s.fee_amount)
  · exact absurd h (by simp)

/-- The fee-bookkeeping loop preserves `protocol_fee ≤ fee_sum < 2^64`. -/
lemma swapFeeLoop_inv (rate : Nat) (steps : List FeeStep) :
    ∀ acc acc2 : FeeAcc, rate ≤ PROTOCOL_FEE_RATE_MUL_VALUE →
    acc.protocol_fee ≤ acc.fee_sum → acc.fee_sum < U64MOD →
    swapFeeLoop rate acc steps = .ok acc2 →
    acc2.protocol_fee ≤ acc2.fee_sum ∧ acc2.fee_sum < U64MOD := by
  induction steps with
  | nil =>
    intro acc acc2 h1 h2 h3 h
    simp only [swapFeeLoop] at h
    injection h with h4
    subst h4
    exact ⟨h2, h3⟩
  | cons s rest ih =>
    intro acc acc2 h1 h2 h3 h
    simp only [swapFeeLoop] at h
    cases hstep : swapFeeStep rate acc s with
    | ok accm =>
      rw [hstep] at h
      have hm := swapFeeStep_inv rate acc accm s h1 h2 h3 hstep
      exact ih accm acc2 h1 hm.1 hm.2 h
    | error e =>
      rw [hstep] at h
      exact absurd h (by simp)

/-- C1: for every successful run of the swap fee loop the accumulated
protocol fee never exceeds `fee_sum`, so the returned
`lp_fee = fee_sum - protocol_fee` satisfies
`fee_sum = lp_fee + protocol_fee`; and each `calculate_fees` step takes
`fee * protocol_fee_rate / 10000` as the protocol-fee delta of that step,
adds the remainder to the input-side growth accumulator as
`(remainder << 64) / curr_liquidity` with wrapping add, and leaves the
accumulator unchanged when `curr_liquidity = 0`. -/
theorem spec_c1_fee_split :
    (∀ (rate g0 : Nat) (steps : List FeeStep) (acc : FeeAcc),
      rate ≤ PROTOCOL_FEE_RATE_MUL_VALUE →
      swapFeeLoop rate (initFeeAcc g0) steps = .ok acc →
      acc.protocol_fee ≤ acc.fee_sum
        ∧ acc.fee_sum = swap_lp_fee acc + acc.protocol_fee)
    ∧ (∀ f rate L pf g : Nat, rate ≤ PROTOCOL_FEE_RATE_MUL_VALUE → pf < U64MOD →
      calculate_fees f rate L pf g =
        (wadd64 pf (calculate_protocol_fee f rate),
         if L = 0 then g
         else wadd128 g (((f - calculate_protocol_fee f rate) <<< Q64_RESOLUTION) / L))) := by
  constructor
  · intro rate g0 steps acc hrate h
    have hinv := swapFeeLoop_inv rate steps (initFeeAcc g0) acc hrate
      (Nat.le_refl 0) (by norm_num [initFeeAcc, U64MOD]) h
    refine ⟨hinv.1, ?_⟩
    have := hinv.1
    simp only [swap_lp_fee]
    omega
  · intro f rate L pf g hrate hpf
    by_cases hr : rate > 0
    · by_cases hL : L = 0
      · subst hL
        simp only [calculate_fees, if_pos hr]
        norm_num
      · have hL2 : 0 < L := Nat.pos_of_ne_zero hL
        simp only [calculate_fees, if_pos hr, if_pos hL2, if_neg hL]
    · have hr0 : rate = 0 := by omega
      subst hr0
      have hd : calculate_protocol_fee f 0 = 0 := by
        simp [calculate_protocol_fee]
      have hw : wadd64 pf 0 = pf := by
        simp only [wadd64, Nat.add_zero]
        exact Nat.mod_eq_of_lt hpf
      by_cases hL : L = 0
      · subst hL
        simp only [calculate_fees, hd, hw]
        norm_num
      · have hL2 : 0 < L := Nat.pos_of_ne_zero hL
        simp only [calculate_fees, if_pos hL2, if_neg hL, hd, hw]
        norm_num

set_option maxRecDepth 10000 in
/-- Witness for `spec_c1_fee_split`: a two-step trace (second step with zero
liquidity) at protocol fee rate 2500. -/
theorem spec_c1_fee_split_witness :
    swapFeeLoop 2500 (initFeeAcc 0) [⟨1000, 10⟩, ⟨7, 0⟩] =
      .ok ⟨1007, 251, 1383505805528216371200⟩
    ∧ (1007 : Nat) = swap_lp_fee ⟨1007, 251, 1383505805528216371200⟩ + 251 := by
  refine ⟨by rfl, ?_⟩
  exact (spec_c1_fee_split.1 2500 0 [⟨1000, 10⟩, ⟨7, 0⟩]
    ⟨1007, 251, 1383505805528216371200⟩
    (by norm_num [PROTOCOL_FEE_RATE_MUL_VALUE]) (by rfl)).2

end Solve3
